import Mathlib

/-!
Verification of the per-account task supervisor of src/main.py (the
Level-Up Dashboard).  The loop body of account_loop is embedded as a step
function over its program points: the atomic segments between awaits run in
one step, and the four awaits (the two gateway calls and the two sleeps) are
the suspension points at which a CancelledError from Task.cancel can be
delivered.  The supervisor handlers start / stop / remove_account /
reset_today / add_account are embedded over an explicit state holding the
ACCOUNTS and TASKS dictionaries as association lists.
-/

namespace LvL

/-- MAX_ACCOUNTS constant (src/main.py line 24). -/
def MAX_ACCOUNTS : Nat := 20

/-- Account record (src/main.py lines 30-41), with the pydantic defaults. -/
structure Account where
  uid : String
  token : String
  display_name : String := ""
  avatar_url : Option String := none
  online : Bool := false
  matchmaking : Bool := false
  current_level : Int := 1
  target_level : Option Int := none
  today_xp : Int := 0
  total_xp : Int := 0
  running : Bool := false
  deriving Repr, DecidableEq

/-- level_from_xp (src/main.py lines 46-47): Python floor division is
Int.fdiv. -/
def level_from_xp (xp : Int) : Int := max 1 (Int.fdiv xp 1000 + 1)

/-- Program points of account_loop (src/main.py lines 88-121).  entry is the
created task before its body first runs; submitting, waiting, polling and
yielding are the four suspension points (awaits at lines 95, 101, 104, 118);
exited means the while loop was left and lines 120-121 ran; cancelled means a
CancelledError was delivered at a suspension point and propagated out of the
coroutine.  CancelledError derives from BaseException, so the two
except-Exception handlers (lines 96, 106) do not catch it, and there is no
try/finally around the loop, so lines 120-121 are skipped on cancellation. -/
inductive PC where
  | entry
  | submitting
  | waiting
  | polling
  | yielding
  | exited
  | cancelled
  deriving Repr, DecidableEq

/-- Outcome of the awaited gw_start_match call: success, or any exception
(the GatewayError of the spec). -/
inductive SubmitRes where
  | ok
  | gatewayError
  deriving Repr, DecidableEq

/-- Outcome of the awaited gw_poll_result call: a gained_xp value, or any
exception (the GatewayError of the spec). -/
inductive PollRes where
  | ok (gained : Int)
  | gatewayError
  deriving Repr, DecidableEq

/-- Scheduler events a suspended account_loop task can receive: first
scheduling of the body, completion of one of the four awaits, or delivery of
the CancelledError requested by Task.cancel. -/
inductive Event where
  | sched
  | submit (r : SubmitRes)
  | wake
  | poll (r : PollRes)
  | tiny
  | cancel
  deriving Repr, DecidableEq

/-- gained = int(res.get("gained_xp", 0)) on success, 0 when the poll raised
(src/main.py lines 103-107). -/
def gainedOf : PollRes → Int
  | .ok g => g
  | .gatewayError => 0

/-- One atomic segment of account_loop (src/main.py lines 88-121), from one
suspension point to the next.  Mismatched events leave the task where it is;
exited and cancelled are absorbing. -/
def loopStep (acc : Account) (pc : PC) (e : Event) : Account × PC :=
  match pc, e with
  | .entry, .sched =>
      ({ acc with online := true, running := true, matchmaking := true }, .submitting)
  | .submitting, .submit .ok => (acc, .waiting)
  | .submitting, .submit .gatewayError =>
      ({ acc with matchmaking := false, running := false, online := true }, .exited)
  | .waiting, .wake => (acc, .polling)
  | .polling, .poll r =>
      let g := gainedOf r
      let acc' := { acc with
        today_xp := acc.today_xp + g
        total_xp := acc.total_xp + g
        current_level := level_from_xp (acc.total_xp + g)
        matchmaking := false }
      match acc'.target_level with
      | some t =>
          if t ≤ acc'.current_level then
            ({ acc' with running := false, online := true }, .exited)
          else (acc', .yielding)
      | none => (acc', .yielding)
  | .yielding, .tiny =>
      if acc.running then ({ acc with matchmaking := true }, .submitting)
      else ({ acc with matchmaking := false, online := true }, .exited)
  | .entry, .cancel => (acc, .cancelled)
  | .submitting, .cancel => (acc, .cancelled)
  | .waiting, .cancel => (acc, .cancelled)
  | .polling, .cancel => (acc, .cancelled)
  | .yielding, .cancel => (acc, .cancelled)
  | _, _ => (acc, pc)

/-- Run account_loop through a list of scheduler events. -/
def runLoop (acc : Account) (pc : PC) : List Event → Account × PC
  | [] => (acc, pc)
  | e :: es =>
      let s := loopStep acc pc e
      runLoop s.1 s.2 es

/-- Task.done(): the coroutine finished, normally or by cancellation. -/
def taskDone : PC → Bool
  | .exited => true
  | .cancelled => true
  | _ => false

/-- Python dict lookup on an association list. -/
def dictGet {α : Type} : List (String × α) → String → Option α
  | [], _ => none
  | (k', v) :: rest, k => if k' = k then some v else dictGet rest k

/-- Python dict assignment: replace the entry for the key, or append it. -/
def dictSet {α : Type} : List (String × α) → String → α → List (String × α)
  | [], k, v => [(k, v)]
  | (k', v') :: rest, k, v =>
      if k' = k then (k, v) :: rest else (k', v') :: dictSet rest k v

/-- Python dict.pop(k, None): drop every entry for the key. -/
def dictPop {α : Type} : List (String × α) → String → List (String × α)
  | [], _ => []
  | (k', v') :: rest, k =>
      if k' = k then dictPop rest k else (k', v') :: dictPop rest k

/-- Number of entries stored for a key. -/
def keyCount {α : Type} (m : List (String × α)) (k : String) : Nat :=
  (m.filter (fun p => p.1 == k)).length

/-- The module state: the ACCOUNTS and TASKS dictionaries
(src/main.py lines 43-44), each task reduced to its program point. -/
structure SupState where
  accounts : List (String × Account) := []
  tasks : List (String × PC) := []
  deriving Repr, DecidableEq

/-- Results of the start handler: 404, 400 for a bad target level, the
"Already running" success, or plain success that spawned a task. -/
inductive StartResult where
  | notFound
  | invalidTarget
  | alreadyRunning
  | started
  deriving Repr, DecidableEq

/-- Results of the other handlers. -/
inductive ApiResult where
  | notFound
  | tooMany
  | duplicate
  | ok
  deriving Repr, DecidableEq

/-- uid in TASKS and not TASKS[uid].done() (src/main.py line 170). -/
def taskAlive (s : SupState) (uid : String) : Bool :=
  match dictGet s.tasks uid with
  | some pc => !taskDone pc
  | none => false

/-- Lines 172-173: set running = True and create the task; the fresh task has
not begun its body yet. -/
def spawn (s : SupState) (uid : String) (acc : Account) : SupState × StartResult :=
  ({ s with accounts := dictSet s.accounts uid { acc with running := true },
            tasks := dictSet s.tasks uid PC.entry }, .started)

/-- start handler (src/main.py lines 157-174).  Note the order: a valid
target_level is written to the account before the already-running check. -/
def start (s : SupState) (uid : String) (target_level : Option Int) :
    SupState × StartResult :=
  match dictGet s.accounts uid with
  | none => (s, .notFound)
  | some acc =>
      match target_level with
      | some t =>
          if t < 1 then (s, .invalidTarget)
          else
            let acc' := { acc with target_level := some t }
            let s' := { s with accounts := dictSet s.accounts uid acc' }
            if taskAlive s' uid then (s', .alreadyRunning) else spawn s' uid acc'
      | none =>
          if taskAlive s uid then (s, .alreadyRunning) else spawn s uid acc

/-- stop handler (src/main.py lines 176-185): sets running = False and calls
t.cancel() on a live task.  The cancellation itself is delivered later, as a
cancel event at the current suspension point of the task (supTaskStep). -/
def stop (s : SupState) (uid : String) : SupState × ApiResult :=
  match dictGet s.accounts uid with
  | none => (s, .notFound)
  | some acc =>
      ({ s with accounts := dictSet s.accounts uid { acc with running := false } }, .ok)

/-- remove_account handler (src/main.py lines 145-155): on a live task sets
running = False and cancels, then pops both dict entries. -/
def remove_account (s : SupState) (uid : String) : SupState × ApiResult :=
  match dictGet s.accounts uid with
  | none => (s, .notFound)
  | some acc =>
      let s' :=
        if taskAlive s uid then
          { s with accounts := dictSet s.accounts uid { acc with running := false } }
        else s
      ({ s' with tasks := dictPop s'.tasks uid,
                 accounts := dictPop s'.accounts uid }, .ok)

/-- reset_today handler (src/main.py lines 187-192). -/
def reset_today (s : SupState) (uid : String) : SupState × ApiResult :=
  match dictGet s.accounts uid with
  | none => (s, .notFound)
  | some acc =>
      ({ s with accounts := dictSet s.accounts uid { acc with today_xp := 0 } }, .ok)

/-- add_account handler (src/main.py lines 136-143): the display name falls
back to "User " plus the last four uid characters when empty. -/
def add_account (s : SupState) (uid token display_name : String) :
    SupState × ApiResult :=
  if MAX_ACCOUNTS ≤ s.accounts.length then (s, .tooMany)
  else if (dictGet s.accounts uid).isSome then (s, .duplicate)
  else
    let dn := if display_name = "" then "User " ++ uid.takeRight 4 else display_name
    ({ s with accounts :=
        dictSet s.accounts uid { uid := uid, token := token, display_name := dn } }, .ok)

/-- Deliver one scheduler event to the task of a uid: the loop reads and
writes ACCOUNTS[uid] (src/main.py line 89 binds the shared object). -/
def supTaskStep (s : SupState) (uid : String) (e : Event) : SupState :=
  match dictGet s.accounts uid, dictGet s.tasks uid with
  | some acc, some pc =>
      let r := loopStep acc pc e
      { s with accounts := dictSet s.accounts uid r.1,
               tasks := dictSet s.tasks uid r.2 }
  | _, _ => s

/-- The derived-level invariant of the spec: current_level is always
level_from_xp total_xp. -/
def levelInv (acc : Account) : Prop :=
  acc.current_level = level_from_xp acc.total_xp

/-! Concrete states used by witnesses and counterexamples. -/

/-- Trace for the stop counterexample: add an account, start it, let the task
reach the gateway submission await, stop, then deliver the cancellation. -/
def sB0 : SupState := (add_account {} "u" "tok" "").1

/-- After start: a fresh task for "u". -/
def sB1 : SupState := (start sB0 "u" none).1

/-- The task body ran to its first await: matchmaking is true. -/
def sB2 : SupState := supTaskStep sB1 "u" .sched

/-- stop sets running = false and requests cancellation. -/
def sB3 : SupState := (stop sB2 "u").1

/-- The CancelledError is delivered at the submission await. -/
def sB4 : SupState := supTaskStep sB3 "u" .cancel

/-- Trace for the handle-removal counterexample: the loop of "v" exits through
a gateway submission error. -/
def sC0 : SupState := (add_account {} "v" "tok" "").1

/-- After start: a fresh task for "v". -/
def sC1 : SupState := (start sC0 "v" none).1

/-- The task body ran to its first await. -/
def sC2 : SupState := supTaskStep sC1 "v" .sched

/-- The submission call raises: the loop exits. -/
def sC3 : SupState := supTaskStep sC2 "v" (.submit .gatewayError)

/-- Scenario account A of the spec: target level 2, fresh scores. -/
def accA : Account := { uid := "A", token := "tok", target_level := some 2 }

/-- A running account one poll short of its target, used as witness input. -/
def accW : Account :=
  { uid := "w", token := "tok", running := true, target_level := some 2 }

/-! Dictionary lemmas. -/

/-- Lookup after assignment. -/
theorem dictGet_dictSet {α : Type} (m : List (String × α)) (k j : String) (v : α) :
    dictGet (dictSet m k v) j = if k = j then some v else dictGet m j := by
  induction m with
  | nil => by_cases h : k = j <;> simp [dictGet, dictSet, h]
  | cons p rest ih =>
      obtain ⟨k', v'⟩ := p
      by_cases h1 : k' = k
      · subst h1
        by_cases h2 : k' = j <;> simp [dictGet, dictSet, h2]
      · have h1' : ¬k = k' := fun h => h1 h.symm
        by_cases h2 : k' = j
        · subst h2
          simp [dictGet, dictSet, h1, h1']
        · simp [dictGet, dictSet, h1, h2, ih]

/-- Lookup after pop. -/
theorem dictGet_dictPop {α : Type} (m : List (String × α)) (k j : String) :
    dictGet (dictPop m k) j = if k = j then none else dictGet m j := by
  induction m with
  | nil => by_cases h : k = j <;> simp [dictGet, dictPop, h]
  | cons p rest ih =>
      obtain ⟨k', v'⟩ := p
      by_cases h1 : k' = k
      · subst h1
        by_cases h2 : k' = j
        · subst h2
          simpa [dictPop] using ih
        · simp [dictGet, dictPop, h2, ih]
      · have h1' : ¬k = k' := fun h => h1 h.symm
        by_cases h2 : k' = j
        · subst h2
          simp [dictGet, dictPop, h1, h1']
        · simp [dictGet, dictPop, h1, h2, ih]

/-- An absent key has no entries. -/
theorem keyCount_eq_zero {α : Type} (m : List (String × α)) (k : String)
    (h : dictGet m k = none) : keyCount m k = 0 := by
  induction m with
  | nil => rfl
  | cons p rest ih =>
      obtain ⟨k', v'⟩ := p
      by_cases h1 : k' = k
      · simp [dictGet, h1] at h
      · simp [dictGet, h1] at h
        simpa [keyCount, h1] using ih h

/-- Assigning an absent key yields exactly one entry for it. -/
theorem keyCount_dictSet {α : Type} (m : List (String × α)) (k : String) (v : α)
    (h : dictGet m k = none) : keyCount (dictSet m k v) k = 1 := by
  induction m with
  | nil => simp [dictSet, keyCount]
  | cons p rest ih =>
      obtain ⟨k', v'⟩ := p
      by_cases h1 : k' = k
      · simp [dictGet, h1] at h
      · simp [dictGet, h1] at h
        simpa [dictSet, keyCount, h1] using ih h

/-! The claims. -/

/-- C7: level_from_xp computes max(1, xp div 1000 + 1) for every non-negative
input, is monotonically non-decreasing there, always returns at least 1, and
maps 0 and 999 to 1, 1000 to 2 and 2500 to 3. -/
theorem c7_level_from_xp_spec :
    (∀ xp : Int, 0 ≤ xp → level_from_xp xp = max 1 (Int.fdiv xp 1000 + 1)) ∧
    (∀ x y : Int, 0 ≤ x → x ≤ y → level_from_xp x ≤ level_from_xp y) ∧
    (∀ xp : Int, 0 ≤ xp → 1 ≤ level_from_xp xp) ∧
    level_from_xp 0 = 1 ∧ level_from_xp 999 = 1 ∧
    level_from_xp 1000 = 2 ∧ level_from_xp 2500 = 3 := by
  refine ⟨fun xp _ => rfl, fun x y hx hxy => ?_, fun xp _ => ?_,
    by decide, by decide, by decide, by decide⟩
  · unfold level_from_xp
    rw [Int.fdiv_eq_ediv x (by norm_num), Int.fdiv_eq_ediv y (by norm_num)]
    omega
  · unfold level_from_xp
    omega

/-- Witness for C7 at concrete inputs. -/
theorem c7_witness :
    level_from_xp 0 = max 1 (Int.fdiv 0 1000 + 1) ∧
    level_from_xp 500 ≤ level_from_xp 1500 ∧
    1 ≤ level_from_xp 42 :=
  ⟨c7_level_from_xp_spec.1 0 (by decide),
   c7_level_from_xp_spec.2.1 500 1500 (by decide) (by decide),
   c7_level_from_xp_spec.2.2.1 42 (by decide)⟩

/-- C4: a GatewayError from the submission call makes the loop clear
matchmaking and running and exit at once, leaving today_xp, total_xp and
current_level exactly as they were. -/
theorem c4_submit_error_terminal (acc : Account) :
    (loopStep acc .submitting (.submit .gatewayError)).2 = .exited ∧
    (loopStep acc .submitting (.submit .gatewayError)).1.matchmaking = false ∧
    (loopStep acc .submitting (.submit .gatewayError)).1.running = false ∧
    (loopStep acc .submitting (.submit .gatewayError)).1.today_xp = acc.today_xp ∧
    (loopStep acc .submitting (.submit .gatewayError)).1.total_xp = acc.total_xp ∧
    (loopStep acc .submitting (.submit .gatewayError)).1.current_level = acc.current_level := by
  simp [loopStep]

/-- C6: once a poll makes current_level reach the target, the loop clears
running and exits; an exited loop absorbs every further event, so no further
gateway calls happen for that uid; and the concrete scenario (target level 2,
the gateway granting 1000 points) ends after exactly one full cycle with
total_xp = 1000, current_level = 2 and running = false. -/
theorem c6_target_reached (acc : Account) (t : Int) (r : PollRes)
    (htl : acc.target_level = some t)
    (hmet : t ≤ level_from_xp (acc.total_xp + gainedOf r)) :
    ((loopStep acc .polling (.poll r)).2 = .exited ∧
      (loopStep acc .polling (.poll r)).1.running = false) ∧
    (∀ acc2 e2, loopStep acc2 .exited e2 = (acc2, .exited)) ∧
    ((runLoop accA .entry [.sched, .submit .ok, .wake, .poll (.ok 1000)]).1.total_xp = 1000 ∧
      (runLoop accA .entry [.sched, .submit .ok, .wake, .poll (.ok 1000)]).1.current_level = 2 ∧
      (runLoop accA .entry [.sched, .submit .ok, .wake, .poll (.ok 1000)]).1.running = false ∧
      (runLoop accA .entry [.sched, .submit .ok, .wake, .poll (.ok 1000)]).2 = .exited) := by
  refine ⟨?_, fun acc2 e2 => by cases e2 <;> rfl, by decide⟩
  simp [loopStep, htl, hmet]

/-- Witness for C6: account A, one poll worth 1000 points. -/
theorem c6_witness :
    (loopStep accA .polling (.poll (.ok 1000))).2 = .exited ∧
    (loopStep accA .polling (.poll (.ok 1000))).1.running = false :=
  (c6_target_reached accA 2 (.ok 1000) (by decide) (by decide)).1

/-- C5: a GatewayError from the poll call contributes a gained amount of 0:
today_xp, total_xp and current_level are unchanged by the cycle (the level is
recomputed from the unchanged total), and when the target is not already met
the loop continues towards the next cycle with running still true. -/
theorem c5_poll_error_nonfatal (acc : Account)
    (hlvl : acc.current_level = level_from_xp acc.total_xp)
    (hrun : acc.running = true)
    (htgt : ∀ t, acc.target_level = some t → acc.current_level < t) :
    (loopStep acc .polling (.poll .gatewayError)).1.today_xp = acc.today_xp ∧
    (loopStep acc .polling (.poll .gatewayError)).1.total_xp = acc.total_xp ∧
    (loopStep acc .polling (.poll .gatewayError)).1.current_level = acc.current_level ∧
    (loopStep acc .polling (.poll .gatewayError)).1.running = true ∧
    (loopStep acc .polling (.poll .gatewayError)).2 = .yielding := by
  cases htl : acc.target_level with
  | none => simp [loopStep, htl, gainedOf, ← hlvl, hrun]
  | some t =>
      have hlt := htgt t htl
      have hcond : ¬t ≤ acc.current_level := by omega
      simp [loopStep, htl, gainedOf, ← hlvl, hcond, hrun]

/-- Witness for C5 at a running account one level short of its target. -/
theorem c5_witness :
    (loopStep accW .polling (.poll .gatewayError)).1.total_xp = accW.total_xp ∧
    (loopStep accW .polling (.poll .gatewayError)).2 = .yielding := by
  have h := c5_poll_error_nonfatal accW (by decide) (by decide)
    (fun t ht => by simp [accW] at ht ⊢; omega)
  exact ⟨h.2.1, h.2.2.2.2⟩

/-- C2 counterexample: stop is issued for "u" while its loop sits in the
gateway submission await with matchmaking true; the cancellation is delivered
there, the coroutine finishes (the handle is done, hence relinquished), and
matchmaking is still true, contrary to the claim that a stop on a running
account leaves matchmaking false. -/
theorem c2_counterexample :
    (dictGet sB4.tasks "u").map taskDone = some true ∧
    (dictGet sB4.accounts "u").map Account.matchmaking = some true := by decide

/-- C2 amended: matchmaking is false on every normal exit of the loop — the
submission-error exit, the target-reached exit, and the while condition
observing running false — but a cancellation delivered at a suspension point
terminates the loop with the account untouched, so a stop whose cancellation
lands while matchmaking is true leaves matchmaking true (c2_counterexample). -/
theorem c2_amended_matchmaking (acc : Account) (pc : PC) (e : Event)
    (hpc : pc ≠ PC.exited) :
    ((loopStep acc pc e).2 = .exited → (loopStep acc pc e).1.matchmaking = false) ∧
    ((loopStep acc pc e).2 = .cancelled → (loopStep acc pc e).1 = acc) := by
  cases pc with
  | exited => exact absurd rfl hpc
  | entry => cases e <;> simp [loopStep]
  | waiting => cases e <;> simp [loopStep]
  | cancelled => cases e <;> simp [loopStep]
  | submitting =>
      cases e with
      | submit r => cases r <;> simp [loopStep]
      | sched => simp [loopStep]
      | wake => simp [loopStep]
      | poll r => simp [loopStep]
      | tiny => simp [loopStep]
      | cancel => simp [loopStep]
  | polling =>
      cases e with
      | poll r =>
          cases htl : acc.target_level with
          | none => simp [loopStep, htl]
          | some t =>
              by_cases hc : t ≤ level_from_xp (acc.total_xp + gainedOf r) <;>
                simp [loopStep, htl, hc]
      | sched => simp [loopStep]
      | submit r => simp [loopStep]
      | wake => simp [loopStep]
      | tiny => simp [loopStep]
      | cancel => simp [loopStep]
  | yielding =>
      cases e with
      | tiny => by_cases hr : acc.running <;> simp [loopStep, hr]
      | sched => simp [loopStep]
      | submit r => simp [loopStep]
      | wake => simp [loopStep]
      | poll r => simp [loopStep]
      | cancel => simp [loopStep]

/-- Witness for the amended C2 on the submission-error exit. -/
theorem c2_amended_witness :
    (loopStep accW .submitting (.submit .gatewayError)).1.matchmaking = false :=
  (c2_amended_matchmaking accW .submitting (.submit .gatewayError) (by decide)).1
    (by decide)

/-- The account of "v" after its loop exited through a submission error. -/
def accV : Account :=
  { uid := "v", token := "tok", display_name := "User v", online := true,
    matchmaking := false, current_level := 1, today_xp := 0, total_xp := 0,
    running := false }

/-- C3 counterexample: the loop of "v" exits through a gateway submission
error, yet its handle is still in the task map, merely marked done — it was
not removed on loop exit. -/
theorem c3_counterexample :
    dictGet sC3.tasks "v" = some PC.exited ∧
    (dictGet sC3.accounts "v").map Account.running = some false := by decide

/-- C3 amended: the loop never removes its own handle — delivering any event
to the task of a uid keeps its entry in the task map (merely possibly done);
handles are removed only by remove_account; and "no handle present or handle
finished" is exactly the idle condition under which start spawns a fresh
loop. -/
theorem c3_handle_retained (s : SupState) (uid : String) (e : Event) :
    ((dictGet s.tasks uid).isSome → (dictGet (supTaskStep s uid e).tasks uid).isSome) ∧
    ((dictGet s.accounts uid).isSome →
      dictGet (remove_account s uid).1.tasks uid = none) ∧
    (taskAlive s uid = false →
      ∀ acc, dictGet s.accounts uid = some acc → (start s uid none).2 = .started) := by
  refine ⟨?_, ?_, ?_⟩
  · intro h
    cases ha : dictGet s.accounts uid with
    | none =>
        simp only [supTaskStep, ha]
        exact h
    | some acc =>
        cases ht : dictGet s.tasks uid with
        | none =>
            simp only [supTaskStep, ha, ht]
            exact ht ▸ h
        | some pc => simp [supTaskStep, ha, ht, dictGet_dictSet]
  · intro h
    cases ha : dictGet s.accounts uid with
    | none => simp [ha] at h
    | some acc =>
        by_cases htA : taskAlive s uid <;>
          simp [remove_account, ha, htA, dictGet_dictPop]
  · intro hAlive acc ha
    simp [start, ha, hAlive, spawn]

/-- Witness for the amended C3 on the state where the loop of "v" exited. -/
theorem c3_handle_retained_witness :
    (dictGet (supTaskStep sC3 "v" .tiny).tasks "v").isSome ∧
    dictGet (remove_account sC3 "v").1.tasks "v" = none ∧
    (start sC3 "v" none).2 = .started :=
  ⟨(c3_handle_retained sC3 "v" .tiny).1 (by decide),
   (c3_handle_retained sC3 "v" .tiny).2.1 (by decide),
   (c3_handle_retained sC3 "v" .tiny).2.2 (by decide) accV (by decide)⟩

/-- Every stored account satisfies the derived-level invariant. -/
def allLevelInv (m : List (String × Account)) : Prop :=
  ∀ j a, dictGet m j = some a → levelInv a

/-- Storing an invariant-satisfying record preserves the invariant. -/
theorem allLevelInv_dictSet {m : List (String × Account)} {uid : String}
    {acc : Account} (hm : allLevelInv m) (hacc : levelInv acc) :
    allLevelInv (dictSet m uid acc) := by
  intro j a h
  rw [dictGet_dictSet] at h
  by_cases hj : uid = j
  · rw [if_pos hj] at h
    cases h
    exact hacc
  · rw [if_neg hj] at h
    exact hm j a h

/-- Removing entries preserves the invariant. -/
theorem allLevelInv_dictPop {m : List (String × Account)} {uid : String}
    (hm : allLevelInv m) : allLevelInv (dictPop m uid) := by
  intro j a h
  rw [dictGet_dictPop] at h
  by_cases hj : uid = j
  · rw [if_pos hj] at h
    cases h
  · rw [if_neg hj] at h
    exact hm j a h

/-- Updating running leaves the level derivation intact. -/
theorem levelInv_set_running {acc : Account} (h : levelInv acc) (b : Bool) :
    levelInv { acc with running := b } := h

/-- Updating target_level leaves the level derivation intact. -/
theorem levelInv_set_target {acc : Account} (h : levelInv acc) (t : Option Int) :
    levelInv { acc with target_level := t } := h

/-- Updating today_xp leaves the level derivation intact. -/
theorem levelInv_set_today {acc : Account} (h : levelInv acc) (x : Int) :
    levelInv { acc with today_xp := x } := h

/-- Every loop step keeps current_level = level_from_xp total_xp: the only
step that writes total_xp recomputes current_level from it in the same
segment (src/main.py lines 110-111). -/
theorem loopStep_levelInv (acc : Account) (pc : PC) (e : Event)
    (h : levelInv acc) : levelInv (loopStep acc pc e).1 := by
  unfold levelInv at h ⊢
  cases pc with
  | entry => cases e <;> simp [loopStep, h]
  | waiting => cases e <;> simp [loopStep, h]
  | cancelled => cases e <;> simp [loopStep, h]
  | exited => cases e <;> simp [loopStep, h]
  | submitting =>
      cases e with
      | submit r => cases r <;> simp [loopStep, h]
      | sched => simp [loopStep, h]
      | wake => simp [loopStep, h]
      | poll r => simp [loopStep, h]
      | tiny => simp [loopStep, h]
      | cancel => simp [loopStep, h]
  | polling =>
      cases e with
      | poll r =>
          cases htl : acc.target_level with
          | none => simp [loopStep, htl]
          | some t =>
              by_cases hc : t ≤ level_from_xp (acc.total_xp + gainedOf r) <;>
                simp [loopStep, htl, hc]
      | sched => simp [loopStep, h]
      | submit r => simp [loopStep, h]
      | wake => simp [loopStep, h]
      | tiny => simp [loopStep, h]
      | cancel => simp [loopStep, h]
  | yielding =>
      cases e with
      | tiny => by_cases hr : acc.running <;> simp [loopStep, hr, h]
      | sched => simp [loopStep, h]
      | submit r => simp [loopStep, h]
      | wake => simp [loopStep, h]
      | poll r => simp [loopStep, h]
      | cancel => simp [loopStep, h]

/-- C8: current_level equals level_from_xp total_xp after every operation —
it holds for the record a fresh add_account stores, is preserved by every
loop step, and is preserved across all stored accounts by every handler. -/
theorem c8_level_invariant :
    (∀ uid token dn, levelInv ({ uid := uid, token := token, display_name := dn } : Account)) ∧
    (∀ acc pc e, levelInv acc → levelInv (loopStep acc pc e).1) ∧
    (∀ s uid token dn, allLevelInv s.accounts →
      allLevelInv (add_account s uid token dn).1.accounts) ∧
    (∀ s uid tl, allLevelInv s.accounts → allLevelInv (start s uid tl).1.accounts) ∧
    (∀ s uid, allLevelInv s.accounts → allLevelInv (stop s uid).1.accounts) ∧
    (∀ s uid, allLevelInv s.accounts → allLevelInv (reset_today s uid).1.accounts) ∧
    (∀ s uid, allLevelInv s.accounts → allLevelInv (remove_account s uid).1.accounts) ∧
    (∀ s uid e, allLevelInv s.accounts → allLevelInv (supTaskStep s uid e).accounts) := by
  have hfresh : ∀ uid token dn,
      levelInv ({ uid := uid, token := token, display_name := dn } : Account) := by
    intro uid token dn
    show (1 : Int) = level_from_xp 0
    decide
  refine ⟨hfresh, loopStep_levelInv, ?_, ?_, ?_, ?_, ?_, ?_⟩
  · intro s uid token dn hs
    by_cases h1 : MAX_ACCOUNTS ≤ s.accounts.length
    · simp only [add_account, if_pos h1]
      exact hs
    · by_cases h2 : (dictGet s.accounts uid).isSome
      · simp only [add_account, if_neg h1, if_pos h2]
        exact hs
      · simp only [add_account, if_neg h1, if_neg h2]
        exact allLevelInv_dictSet hs (hfresh uid token _)
  · intro s uid tl hs
    cases ha : dictGet s.accounts uid with
    | none => simp only [start, ha]; exact hs
    | some acc =>
        have hacc : levelInv acc := hs uid acc ha
        cases tl with
        | none =>
            by_cases hAlive : taskAlive s uid
            · simp only [start, ha, if_pos hAlive]
              exact hs
            · simp only [start, ha, if_neg hAlive, spawn]
              exact allLevelInv_dictSet hs (levelInv_set_running hacc true)
        | some t =>
            by_cases ht : t < 1
            · simp only [start, ha, if_pos ht]
              exact hs
            · have hs' : allLevelInv (dictSet s.accounts uid { acc with target_level := some t }) :=
                allLevelInv_dictSet hs (levelInv_set_target hacc (some t))
              by_cases hAlive : taskAlive { s with
                  accounts := dictSet s.accounts uid { acc with target_level := some t } } uid
              · simp only [start, ha, if_neg ht, if_pos hAlive]
                exact hs'
              · simp only [start, ha, if_neg ht, if_neg hAlive, spawn]
                exact allLevelInv_dictSet hs'
                  (levelInv_set_running (levelInv_set_target hacc (some t)) true)
  · intro s uid hs
    cases ha : dictGet s.accounts uid with
    | none => simp only [stop, ha]; exact hs
    | some acc =>
        simp only [stop, ha]
        exact allLevelInv_dictSet hs (levelInv_set_running (hs uid acc ha) false)
  · intro s uid hs
    cases ha : dictGet s.accounts uid with
    | none => simp only [reset_today, ha]; exact hs
    | some acc =>
        simp only [reset_today, ha]
        exact allLevelInv_dictSet hs (levelInv_set_today (hs uid acc ha) 0)
  · intro s uid hs
    cases ha : dictGet s.accounts uid with
    | none => simp only [remove_account, ha]; exact hs
    | some acc =>
        by_cases hAlive : taskAlive s uid
        · simp only [remove_account, ha, if_pos hAlive]
          exact allLevelInv_dictPop
            (allLevelInv_dictSet hs (levelInv_set_running (hs uid acc ha) false))
        · simp only [remove_account, ha, if_neg hAlive]
          exact allLevelInv_dictPop hs
  · intro s uid e hs
    cases ha : dictGet s.accounts uid with
    | none => simp only [supTaskStep, ha]; exact hs
    | some acc =>
        cases ht : dictGet s.tasks uid with
        | none => simp only [supTaskStep, ha, ht]; exact hs
        | some pc =>
            simp only [supTaskStep, ha, ht]
            exact allLevelInv_dictSet hs (loopStep_levelInv acc pc e (hs uid acc ha))

/-- Witness for C8: a fresh account and a concrete poll step. -/
theorem c8_witness :
    levelInv ({ uid := "x", token := "y" } : Account) ∧
    levelInv (loopStep accW .polling (.poll (.ok 4321))).1 :=
  ⟨c8_level_invariant.1 "x" "y" "",
   c8_level_invariant.2.1 accW .polling (.poll (.ok 4321)) (by unfold levelInv; decide)⟩

/-- Score carried by one scheduler event: the gained amount of a poll
outcome, 0 for everything else. -/
def eventGain : Event → Int
  | .poll r => gainedOf r
  | _ => 0

/-- The xp fields of an account. -/
def xpView (a : Account) : Int × Int := (a.today_xp, a.total_xp)

/-- C9: with a gateway that never subtracts score (non-negative gained
amounts), every loop step leaves total_xp and today_xp no smaller and keeps
total_xp non-negative; start and stop never change the xp fields of any
stored account; and reset_today sets today_xp to 0, leaving total_xp as it
was. -/
theorem c9_xp_monotone :
    (∀ acc pc e, 0 ≤ eventGain e →
      acc.total_xp ≤ (loopStep acc pc e).1.total_xp ∧
      acc.today_xp ≤ (loopStep acc pc e).1.today_xp) ∧
    (∀ acc pc e, 0 ≤ eventGain e → 0 ≤ acc.total_xp →
      0 ≤ (loopStep acc pc e).1.total_xp) ∧
    (∀ s uid tl j, (dictGet (start s uid tl).1.accounts j).map xpView =
      (dictGet s.accounts j).map xpView) ∧
    (∀ s uid j, (dictGet (stop s uid).1.accounts j).map xpView =
      (dictGet s.accounts j).map xpView) ∧
    (∀ s uid acc, dictGet s.accounts uid = some acc →
      dictGet (reset_today s uid).1.accounts uid = some { acc with today_xp := 0 }) := by
  have hmono : ∀ acc pc e, 0 ≤ eventGain e →
      acc.total_xp ≤ (loopStep acc pc e).1.total_xp ∧
      acc.today_xp ≤ (loopStep acc pc e).1.today_xp := by
    intro acc pc e hg
    cases pc with
    | entry => cases e <;> simp [loopStep]
    | waiting => cases e <;> simp [loopStep]
    | cancelled => cases e <;> simp [loopStep]
    | exited => cases e <;> simp [loopStep]
    | submitting =>
        cases e with
        | submit r => cases r <;> simp [loopStep]
        | sched => simp [loopStep]
        | wake => simp [loopStep]
        | poll r => simp [loopStep]
        | tiny => simp [loopStep]
        | cancel => simp [loopStep]
    | polling =>
        cases e with
        | poll r =>
            simp only [eventGain] at hg
            cases htl : acc.target_level with
            | none => simp [loopStep, htl]; omega
            | some t =>
                by_cases hc : t ≤ level_from_xp (acc.total_xp + gainedOf r) <;>
                  simp [loopStep, htl, hc] <;> omega
        | sched => simp [loopStep]
        | submit r => simp [loopStep]
        | wake => simp [loopStep]
        | tiny => simp [loopStep]
        | cancel => simp [loopStep]
    | yielding =>
        cases e with
        | tiny => by_cases hr : acc.running <;> simp [loopStep, hr]
        | sched => simp [loopStep]
        | submit r => simp [loopStep]
        | wake => simp [loopStep]
        | poll r => simp [loopStep]
        | cancel => simp [loopStep]
  refine ⟨hmono, ?_, ?_, ?_, ?_⟩
  · intro acc pc e hg htot
    have h := (hmono acc pc e hg).1
    omega
  · intro s uid tl j
    cases ha : dictGet s.accounts uid with
    | none => simp [start, ha]
    | some acc =>
        cases tl with
        | none =>
            by_cases hAlive : taskAlive s uid
            · simp [start, ha, hAlive]
            · by_cases hj : uid = j
              · subst hj
                simp [start, ha, hAlive, spawn, dictGet_dictSet, ha, xpView]
              · simp [start, ha, hAlive, spawn, dictGet_dictSet, hj]
        | some t =>
            by_cases ht : t < 1
            · simp [start, ha, ht]
            · by_cases hj : uid = j
              · subst hj
                by_cases hAlive : taskAlive { s with
                    accounts := dictSet s.accounts uid { acc with target_level := some t } } uid
                · simp [start, ha, ht, hAlive, dictGet_dictSet, xpView]
                · simp [start, ha, ht, hAlive, spawn, dictGet_dictSet, xpView]
              · by_cases hAlive : taskAlive { s with
                    accounts := dictSet s.accounts uid { acc with target_level := some t } } uid
                · simp [start, ha, ht, hAlive, dictGet_dictSet, hj]
                · simp [start, ha, ht, hAlive, spawn, dictGet_dictSet, hj]
  · intro s uid j
    cases ha : dictGet s.accounts uid with
    | none => simp [stop, ha]
    | some acc =>
        by_cases hj : uid = j
        · subst hj
          simp [stop, ha, dictGet_dictSet, xpView]
        · simp [stop, ha, dictGet_dictSet, hj]
  · intro s uid acc ha
    simp [reset_today, ha, dictGet_dictSet]

/-- Witness for C9 at a concrete poll step and the concrete state of "v". -/
theorem c9_witness :
    accW.total_xp ≤ (loopStep accW .polling (.poll (.ok 5))).1.total_xp ∧
    0 ≤ (loopStep accW .polling (.poll (.ok 5))).1.total_xp ∧
    dictGet (reset_today sC3 "v").1.accounts "v" = some { accV with today_xp := 0 } :=
  ⟨(c9_xp_monotone.1 accW .polling (.poll (.ok 5)) (by decide)).1,
   c9_xp_monotone.2.1 accW .polling (.poll (.ok 5)) (by decide) (by decide),
   c9_xp_monotone.2.2.2.2 sC3 "v" accV (by decide)⟩

/-- The account stored by add_account for "u" in the two-start scenario. -/
def accU : Account := { uid := "u", token := "tok", display_name := "User u" }

/-- The account of "u" once its loop reached the submission await. -/
def accU2 : Account :=
  { uid := "u", token := "tok", display_name := "User u", online := true,
    matchmaking := true, running := true }

/-- C1: starting while an unfinished handle exists returns the
already-running success and does not touch the task map; from the idle state
a start spawns exactly one task, and an immediately repeated start returns
already-running and leaves that single task entry in place. -/
theorem c1_start_idempotent (s : SupState) (uid : String) (tl : Option Int)
    (acc : Account) (hacc : dictGet s.accounts uid = some acc)
    (hvalid : ∀ t, tl = some t → 1 ≤ t) :
    (∀ pc, dictGet s.tasks uid = some pc → taskDone pc = false →
      (start s uid tl).2 = .alreadyRunning ∧ (start s uid tl).1.tasks = s.tasks) ∧
    (dictGet s.tasks uid = none →
      (start s uid tl).2 = .started ∧
      dictGet (start s uid tl).1.tasks uid = some PC.entry ∧
      keyCount (start s uid tl).1.tasks uid = 1 ∧
      (start (start s uid tl).1 uid tl).2 = .alreadyRunning ∧
      (start (start s uid tl).1 uid tl).1.tasks = (start s uid tl).1.tasks) := by
  constructor
  · intro pc htask hdone
    have hAlive : taskAlive s uid = true := by
      simp [taskAlive, htask, hdone]
    cases tl with
    | none => simp [start, hacc, hAlive]
    | some t =>
        have ht := hvalid t rfl
        have hnt : ¬t < 1 := by omega
        simp [start, hacc, hnt, taskAlive, htask, hdone]
  · intro htask
    have hAlive : taskAlive s uid = false := by
      simp [taskAlive, htask]
    cases tl with
    | none =>
        have hs1 : (start s uid none).1 =
            { s with accounts := dictSet s.accounts uid { acc with running := true },
                     tasks := dictSet s.tasks uid PC.entry } := by
          simp [start, hacc, hAlive, spawn]
        refine ⟨?_, ?_, ?_, ?_, ?_⟩
        · simp [start, hacc, hAlive, spawn]
        · rw [hs1]
          simp [dictGet_dictSet]
        · rw [hs1]
          exact keyCount_dictSet s.tasks uid PC.entry htask
        · rw [hs1]
          simp [start, dictGet_dictSet, taskAlive, taskDone]
        · rw [hs1]
          simp [start, dictGet_dictSet, taskAlive, taskDone]
    | some t =>
        have ht := hvalid t rfl
        have hnt : ¬t < 1 := by omega
        have hs1 : (start s uid (some t)).1 =
            { s with
                accounts := dictSet (dictSet s.accounts uid { acc with target_level := some t })
                  uid { acc with target_level := some t, running := true },
                tasks := dictSet s.tasks uid PC.entry } := by
          simp [start, hacc, hnt, taskAlive, htask, spawn, dictGet_dictSet]
        refine ⟨?_, ?_, ?_, ?_, ?_⟩
        · simp [start, hacc, hnt, taskAlive, htask, spawn, dictGet_dictSet]
        · rw [hs1]
          simp [dictGet_dictSet]
        · rw [hs1]
          exact keyCount_dictSet s.tasks uid PC.entry htask
        · rw [hs1]
          simp [start, dictGet_dictSet, taskAlive, taskDone, hnt]
        · rw [hs1]
          simp [start, dictGet_dictSet, taskAlive, taskDone, hnt]

/-- Witness for C1: two starts of "u" from the freshly added state. -/
theorem c1_witness :
    (start sB0 "u" none).2 = .started ∧
    (start (start sB0 "u" none).1 "u" none).2 = .alreadyRunning := by
  have h := (c1_start_idempotent sB0 "u" none accU (by decide)
    (fun t ht => nomatch ht)).2 (by decide)
  exact ⟨h.1, h.2.2.2.1⟩

/-- C10: a start with a valid positive target on an account whose handle is
alive overwrites target_level before returning the already-running success:
the idempotent start is a no-op for the task map but not for the target
field, so it can change the termination condition of the running loop. -/
theorem c10_start_overwrites_target (s : SupState) (uid : String) (t : Int)
    (acc : Account) (pc : PC)
    (hacc : dictGet s.accounts uid = some acc)
    (htask : dictGet s.tasks uid = some pc)
    (hlive : taskDone pc = false)
    (ht : 1 ≤ t) :
    (start s uid (some t)).2 = .alreadyRunning ∧
    dictGet (start s uid (some t)).1.accounts uid =
      some { acc with target_level := some t } ∧
    (start s uid (some t)).1.tasks = s.tasks := by
  have hnt : ¬t < 1 := by omega
  simp [start, hacc, hnt, taskAlive, htask, hlive, dictGet_dictSet]

/-- Witness for C10: retargeting "u" while its loop sits at the submission
await. -/
theorem c10_witness :
    (start sB2 "u" (some 5)).2 = .alreadyRunning ∧
    dictGet (start sB2 "u" (some 5)).1.accounts "u" =
      some { accU2 with target_level := some 5 } := by
  have h := c10_start_overwrites_target sB2 "u" 5 accU2 .submitting
    (by decide) (by decide) (by decide) (by decide)
  exact ⟨h.1, h.2.1⟩

end LvL
